import Mathlib

/-!
Shallow embedding of the HighPerTimer library (libHPTimer): the timestamp
value type with its lazy normalization, the overflow-checked arithmetic,
the TSC-calibration outlier loop, the HPET counter read and the sleep
entry points, together with theorems settling the frozen claims.

Modelling conventions: C++ doubles are modelled as exact rationals,
int64 arithmetic as ℤ with explicit two's-complement wrap where overflow
matters, and C++ `/` and `%` on integers as Int.tdiv / Int.tmod
(truncation toward zero, the C++11 semantics).
-/

namespace HPTimerSpec

/-- Truncation of a rational toward zero: the value of the C++ cast
`(int64_t)(double)` when the result is representable. -/
def ratTrunc (q : ℚ) : ℤ :=
  Int.tdiv q.num (q.den : ℤ)

/-- Smallest int64 value, `std::numeric_limits<int64_t>::min()`. -/
def int64Min : ℤ := -(2 ^ 63)

/-- Largest int64 value, `std::numeric_limits<int64_t>::max()`. -/
def int64Max : ℤ := 2 ^ 63 - 1

/-- The data members of class HighPerTimer that the claims mention
(HighPerTimer.h:486-500).  The volatile sleep flags `mInterrupted` and
`mCancelled` are modelled separately for the sleep claims. -/
structure HPTimerState where
  mSeconds : ℤ
  mNSeconds : ℤ
  mSign : Bool
  mHPTics : ℤ
  mNormalized : Bool
deriving DecidableEq

/-- Error signals of the library: `std::out_of_range("HPTimer overflow")`
and `std::out_of_range("illegal init Parameters of HighPerTimer")`. -/
inductive HPErr where
  | overflow
  | illegalInit
deriving DecidableEq

/-- HighPerTimer::Normalize (HighPerTimer.cpp:570-587).
`mSign = mHPTics >> 63` is the sign bit of the 64-bit tick count,
i.e. `mHPTics < 0`; `(int64_t)(mHPTics * NsecPerTic)` is truncation
toward zero of the exact product (doubles modelled as rationals);
`std::abs` and the C++ `/`, `%` by 10⁹ act on the nonnegative result. -/
def Normalize (nspt : ℚ) (s : HPTimerState) : HPTimerState :=
  if s.mNormalized then s
  else
    let sign := decide (s.mHPTics < 0)
    let toNSecs := ratTrunc ((s.mHPTics : ℚ) * nspt)
    let toNSecsAbs := if toNSecs < 0 then -toNSecs else toNSecs
    { s with
      mSign := sign
      mSeconds := Int.tdiv toNSecsAbs (10 ^ 9)
      mNSeconds := Int.tmod toNSecsAbs (10 ^ 9)
      mNormalized := true }

/-- HighPerTimer::HighPerTimer(int64_t Seconds, int64_t NSeconds, bool Sign)
(HighPerTimer.cpp:111-162).  `maxNs` is the process-wide bound
`HPTimer_MAX.Seconds() * 10⁹ + HPTimer_MAX.NSeconds()` as the uint64 the
code compares against.  The check `0 > mSeconds` fires exactly when the
int64 sum `Seconds + NSeconds / 10⁹` (both made nonnegative first) wraps
past 2⁶³; the range comparison against `maxNs` is carried out in uint64
arithmetic, hence the `% 2 ^ 64`. -/
def hpCtorSNS (nspt : ℚ) (maxNs : ℕ) (S NS : ℤ) (Sign : Bool) :
    Except HPErr HPTimerState :=
  if (S < 0 ∨ NS < 0) ∧ Sign = true then .error .illegalInit
  else if NS < 0 ∧ S ≠ 0 then .error .illegalInit
  else
    let sign : Bool := Sign || decide (S < 0) || decide (NS < 0)
    let Sa := |S|
    let NSa := |NS|
    let secSum := Sa + Int.tdiv NSa (10 ^ 9)
    if 2 ^ 63 ≤ secSum then .error .overflow
    else
      let nsec := Int.tmod NSa (10 ^ 9)
      let total : ℕ := (secSum * 10 ^ 9 + nsec).toNat % 2 ^ 64
      if maxNs < total then .error .overflow
      else
        let tics := ratTrunc ((total : ℚ) / (nspt + 1 / 10 ^ 15))
        .ok { mSeconds := secSum, mNSeconds := nsec, mSign := sign,
              mHPTics := if sign then -tics else tics, mNormalized := true }

/-- Helper: truncation of an integer-valued rational is that integer. -/
theorem ratTrunc_intCast (z : ℤ) : ratTrunc (z : ℚ) = z := by
  simp [ratTrunc, Rat.num_intCast, Rat.den_intCast, Int.tdiv_one]

/-- C3 counterexample: the (Seconds, NSeconds, Sign) constructor with
arguments (0, 0, true) yields a state that is normalized and has
sign flag `true` although its tick count is 0 (not negative), so in the
normalized state produced by this constructor `sign = (tics < 0)` fails. -/
theorem cex_c3_ctor_sign :
    (hpCtorSNS 1 (9 * 10 ^ 18) 0 0 true).toOption.map
        (fun s => (s.mNormalized, s.mSign, decide (s.mHPTics < 0)))
      = some (true, true, false) := by
  norm_num [hpCtorSNS, ratTrunc, Except.toOption]

/-- C3 (amended): for every Timestamp whose decomposition is produced by
Normalize (the lazy path, entered with `mNormalized = false`),
`seconds * 10⁹ + nanoseconds` equals `|tics * nanoseconds_per_tick|`
truncated toward zero — exactly, hence within 1 ns — and the sign flag
equals `tics < 0`; the hypothesis `hb` restricts to inputs where the
intermediate `(int64_t)` cast does not overflow, matching the machine. -/
theorem thm_c3_normalize_invariant (s : HPTimerState) (nspt : ℚ)
    (hn : s.mNormalized = false)
    (hb : |ratTrunc ((s.mHPTics : ℚ) * nspt)| < 2 ^ 63) :
    (Normalize nspt s).mSeconds * 10 ^ 9 + (Normalize nspt s).mNSeconds
        = |ratTrunc ((s.mHPTics : ℚ) * nspt)| ∧
    (Normalize nspt s).mSign = decide (s.mHPTics < 0) ∧
    (Normalize nspt s).mHPTics = s.mHPTics ∧
    (Normalize nspt s).mNormalized = true := by
  have _hb := hb
  set t := ratTrunc ((s.mHPTics : ℚ) * nspt) with ht
  have habs : (if t < 0 then -t else t) = |t| := by
    rcases lt_or_le t 0 with h | h
    · simp [h, abs_of_neg h]
    · simp [not_lt.mpr h, abs_of_nonneg h]
  have hdm := Int.tdiv_add_tmod |t| (10 ^ 9)
  constructor
  · simp only [Normalize, hn, Bool.false_eq_true, if_false, ← ht, habs]
    linarith [hdm]
  · refine ⟨?_, ?_, ?_⟩ <;>
      simp only [Normalize, hn, Bool.false_eq_true, if_false, ← ht]

/-- Witness for thm_c3_normalize_invariant at the concrete state with
tick count -5 and nanoseconds-per-tick 2. -/
theorem wit_c3_normalize_invariant :
    (Normalize 2 ⟨0, 0, false, -5, false⟩).mSeconds * 10 ^ 9 +
        (Normalize 2 ⟨0, 0, false, -5, false⟩).mNSeconds
      = |ratTrunc ((((⟨0, 0, false, -5, false⟩ : HPTimerState).mHPTics : ℤ) : ℚ) * 2)| ∧
    (Normalize 2 ⟨0, 0, false, -5, false⟩).mSign
      = decide ((⟨0, 0, false, -5, false⟩ : HPTimerState).mHPTics < 0) ∧
    (Normalize 2 ⟨0, 0, false, -5, false⟩).mHPTics
      = (⟨0, 0, false, -5, false⟩ : HPTimerState).mHPTics ∧
    (Normalize 2 ⟨0, 0, false, -5, false⟩).mNormalized = true :=
  thm_c3_normalize_invariant ⟨0, 0, false, -5, false⟩ 2 rfl
    (by
      show |ratTrunc (((-5 : ℤ) : ℚ) * 2)| < 2 ^ 63
      have h : ((-5 : ℤ) : ℚ) * 2 = ((-10 : ℤ) : ℚ) := by norm_num
      rw [h, ratTrunc_intCast]
      norm_num)

/-- HighPerTimer::HighPerTimer(int64_t HPTics, bool Shift) with
`Shift = false` (HighPerTimer.cpp:169-191): only the final range check
against the process-wide bounds runs. -/
def hpCtorTicsNoShift (mx mn : ℤ) (tics : ℤ) : Except HPErr ℤ :=
  if tics > mx ∨ tics < mn then .error .overflow
  else .ok tics

/-- operator+(const HighPerTimer&, const HighPerTimer&)
(HighPerTimer.h:574-585): two guard checks on the tick values followed by
construction of the sum with `Shift = false`.  The embedding is pure, so
a raised error produces no partial state. -/
def hpAdd (mx mn : ℤ) (t1 t2 : ℤ) : Except HPErr ℤ :=
  if t2 > 0 ∧ mx - t2 ≤ t1 then .error .overflow
  else if t2 < 0 ∧ mn - t2 ≥ t1 then .error .overflow
  else hpCtorTicsNoShift mx mn (t1 + t2)

/-- C4 counterexample: with bounds MIN = -100, MAX = 100, the sum
99 + 1 = 100 lies within [MIN, MAX], yet operator+ raises the
out-of-range error because its guard uses `MAX - t2 <= t1` (crossing
treated inclusively). -/
theorem cex_c4_add_at_bound :
    hpAdd 100 (-100) 99 1 = .error .overflow ∧
    (-100 : ℤ) ≤ 99 + 1 ∧ (99 + 1 : ℤ) ≤ 100 := by
  refine ⟨?_, by norm_num, by norm_num⟩
  norm_num [hpAdd, hpCtorTicsNoShift]

/-- C4 (amended): for Timestamp tick values within bounds,
`(a + b).tics = a.tics + b.tics` whenever the sum stays strictly below
MAX when b > 0 and strictly above MIN when b < 0; an out-of-range error
is raised when b > 0 and the sum reaches MAX, or b < 0 and the sum
reaches MIN — a sum landing exactly on a bound with b ≠ 0 is rejected
even though it lies within [MIN, MAX]. -/
theorem thm_c4_add_spec (mx mn t1 t2 : ℤ)
    (h1l : mn ≤ t1) (h1u : t1 ≤ mx) (h2l : mn ≤ t2) (h2u : t2 ≤ mx) :
    ((0 < t2 → t1 + t2 < mx) → (t2 < 0 → mn < t1 + t2) →
        hpAdd mx mn t1 t2 = .ok (t1 + t2)) ∧
    ((0 < t2 ∧ mx ≤ t1 + t2) ∨ (t2 < 0 ∧ t1 + t2 ≤ mn) →
        hpAdd mx mn t1 t2 = .error .overflow) := by
  constructor
  · intro hpos hneg
    rcases lt_trichotomy t2 0 with hc | hc | hc
    · have hs := hneg hc
      simp only [hpAdd, hpCtorTicsNoShift]
      rw [if_neg (by omega), if_neg (by omega), if_neg (by omega)]
    · subst hc
      simp only [hpAdd, hpCtorTicsNoShift]
      rw [if_neg (by omega), if_neg (by omega), if_neg (by omega)]
    · have hs := hpos hc
      simp only [hpAdd, hpCtorTicsNoShift]
      rw [if_neg (by omega), if_neg (by omega), if_neg (by omega)]
  · intro h
    simp only [hpAdd, hpCtorTicsNoShift]
    rcases h with ⟨h2, hs⟩ | ⟨h2, hs⟩
    · rw [if_pos (by omega)]
    · rw [if_neg (by omega), if_pos (by omega)]

/-- Witness for thm_c4_add_spec: a sum strictly inside the bounds
succeeds, and a sum reaching MIN with a negative addend errors. -/
theorem wit_c4_add_spec :
    hpAdd 100 (-100) 5 7 = .ok (5 + 7) ∧
    hpAdd 100 (-100) (-99) (-1) = .error .overflow :=
  ⟨(thm_c4_add_spec 100 (-100) 5 7 (by norm_num) (by norm_num)
      (by norm_num) (by norm_num)).1 (by norm_num) (by norm_num),
   (thm_c4_add_spec 100 (-100) (-99) (-1) (by norm_num) (by norm_num)
      (by norm_num) (by norm_num)).2 (Or.inr ⟨by norm_num, by norm_num⟩)⟩

/-- HighPerTimer::SetTics (HighPerTimer.cpp:1262-1273), as written: the
guard compares HPTics twice against HPTimer_MAX.HPTics() (`<=` or `>=`),
and HPTimer_MIN is never consulted; the receiver's tick count is set and
the normalized flag cleared when the guard holds. -/
def SetTics (mx : ℤ) (s : HPTimerState) (tics : ℤ) : Except HPErr HPTimerState :=
  if tics ≤ mx ∨ tics ≥ mx then
    .ok { s with mHPTics := tics, mNormalized := false }
  else .error .overflow

/-- C5: evaluating SetTics at the failing input.  With the HPET bounds
(MAX tick count int64::max / 120 = 76861433640456465) the argument
76861433640456466 lies outside [MIN, MAX], yet SetTics accepts it and
stores it, because its guard `x <= MAX or x >= MAX` is a tautology. -/
theorem thm_c5_settics_accepts_out_of_range :
    SetTics 76861433640456465 ⟨0, 0, false, 0, false⟩ 76861433640456466
      = .ok ⟨0, 0, false, 76861433640456466, false⟩ ∧
    Int.tdiv int64Max 120 = 76861433640456465 := by
  constructor
  · norm_num [SetTics]
  · decide

/-- HighPerTimer::InvertSign (HighPerTimer.cpp:1305-1318): `mSign` is
flipped before the range check, so when the check throws, the receiver
is left with the flipped sign cache.  The error value therefore carries
the state the receiver is left in. -/
def InvertSign (s : HPTimerState) : Except (HPErr × HPTimerState) HPTimerState :=
  let s1 : HPTimerState := { s with mSign := !s.mSign }
  if s1.mHPTics ≠ int64Min then .ok { s1 with mHPTics := -s1.mHPTics }
  else .error (.overflow, s1)

/-- C9 counterexample: on a receiver with tick count int64::MIN and sign
cache true, InvertSign raises the out-of-range error but leaves the
receiver with its sign cache flipped to false — the receiver is not
unchanged. -/
theorem cex_c9_invertsign_mutates_on_error :
    InvertSign ⟨0, 0, true, int64Min, false⟩
      = .error (.overflow, ⟨0, 0, false, int64Min, false⟩) ∧
    (⟨0, 0, false, int64Min, false⟩ : HPTimerState)
      ≠ ⟨0, 0, true, int64Min, false⟩ := by
  constructor
  · simp [InvertSign]
  · decide

/-- C9 (amended): InvertSign raises the out-of-range error exactly when
the receiver's tick count equals int64::MIN; on that error the tick
count, the cached seconds/nanoseconds and the normalized flag are
unchanged but the cached sign flag has been flipped (the flip precedes
the check); for every other tick value the tick count is negated. -/
theorem thm_c9_invertsign_spec (s : HPTimerState) :
    (s.mHPTics = int64Min →
        InvertSign s = .error (.overflow, { s with mSign := !s.mSign })) ∧
    (s.mHPTics ≠ int64Min →
        InvertSign s = .ok { s with mSign := !s.mSign, mHPTics := -s.mHPTics }) := by
  constructor <;> intro h <;> simp [InvertSign, h]

/-- Witness for thm_c9_invertsign_spec: the error case at int64::MIN and
the success case at tick count 7. -/
theorem wit_c9_invertsign_spec :
    InvertSign ⟨1, 2, false, int64Min, true⟩
        = .error (.overflow, ⟨1, 2, true, int64Min, true⟩) ∧
    InvertSign ⟨1, 2, false, 7, true⟩ = .ok ⟨1, 2, true, -7, true⟩ := by
  constructor
  · have h := (thm_c9_invertsign_spec ⟨1, 2, false, int64Min, true⟩).1 rfl
    simpa using h
  · have h := (thm_c9_invertsign_spec ⟨1, 2, false, 7, true⟩).2 (by decide)
    simpa using h

/-- C8: the (Seconds, NSeconds, Sign) constructor raises the
illegal-arguments error exactly when some component is negative with
Sign = true, or NSeconds is negative with Seconds non-zero; every other
in-range triple (hypotheses bound the derived seconds/nanoseconds by the
int64 range and the process-wide maximum) constructs successfully. -/
theorem thm_c8_ctor_error_spec (nspt : ℚ) (maxNs : ℕ) (S NS : ℤ) (Sign : Bool) :
    (hpCtorSNS nspt maxNs S NS Sign = .error .illegalInit ↔
        ((S < 0 ∨ NS < 0) ∧ Sign = true) ∨ (NS < 0 ∧ S ≠ 0)) ∧
    (¬ (((S < 0 ∨ NS < 0) ∧ Sign = true) ∨ (NS < 0 ∧ S ≠ 0)) →
      |S| + Int.tdiv |NS| (10 ^ 9) < 2 ^ 63 →
      (|S| + Int.tdiv |NS| (10 ^ 9)) * 10 ^ 9 + Int.tmod |NS| (10 ^ 9) ≤ (maxNs : ℤ) →
      maxNs < 2 ^ 63 →
      ∃ st, hpCtorSNS nspt maxNs S NS Sign = .ok st ∧
        st.mSeconds = |S| + Int.tdiv |NS| (10 ^ 9) ∧
        st.mNSeconds = Int.tmod |NS| (10 ^ 9) ∧
        st.mNormalized = true) := by
  constructor
  · simp only [hpCtorSNS]
    split_ifs with h1 h2 h3 h4
    · exact iff_of_true rfl (Or.inl h1)
    · exact iff_of_true rfl (Or.inr h2)
    · exact iff_of_false (by simp) (by tauto)
    · exact iff_of_false (by simp) (by tauto)
    · exact iff_of_false (by simp) (by tauto)
  · intro hIll hsec htot hmax
    simp only [hpCtorSNS]
    split_ifs with h1 h2 h3 h4
    · exact absurd (Or.inl h1) hIll
    · exact absurd (Or.inr h2) hIll
    · exact absurd h3 (not_le.mpr hsec)
    · exfalso
      have ha : (0 : ℤ) ≤ Int.tdiv |NS| (10 ^ 9) :=
        Int.tdiv_nonneg (abs_nonneg _) (by norm_num)
      have hc : (0 : ℤ) ≤ |S| := abs_nonneg _
      have hb : (0 : ℤ) ≤ Int.tmod |NS| (10 ^ 9) :=
        Int.tmod_nonneg _ (abs_nonneg _)
      have hX : (0 : ℤ) ≤ (|S| + Int.tdiv |NS| (10 ^ 9)) * 10 ^ 9 +
          Int.tmod |NS| (10 ^ 9) := by
        have := mul_nonneg (by linarith : (0 : ℤ) ≤ |S| + Int.tdiv |NS| (10 ^ 9))
          (by norm_num : (0 : ℤ) ≤ 10 ^ 9)
        linarith
      set X := (|S| + Int.tdiv |NS| (10 ^ 9)) * 10 ^ 9 + Int.tmod |NS| (10 ^ 9)
        with hXdef
      have h1' : X.toNat ≤ maxNs := by omega
      have h2' : X.toNat % 2 ^ 64 ≤ X.toNat := Nat.mod_le _ _
      omega
    all_goals exact ⟨_, rfl, rfl, rfl, rfl⟩

/-- Witness for thm_c8_ctor_error_spec: the triple (1 s, 5·10⁸ ns,
positive sign) is legal and in range, so construction succeeds. -/
theorem wit_c8_ctor_error_spec :
    ∃ st, hpCtorSNS 1 (9 * 10 ^ 18) 1 500000000 false = .ok st ∧
      st.mSeconds = |(1 : ℤ)| + Int.tdiv |(500000000 : ℤ)| (10 ^ 9) ∧
      st.mNSeconds = Int.tmod |(500000000 : ℤ)| (10 ^ 9) ∧
      st.mNormalized = true :=
  (thm_c8_ctor_error_spec 1 (9 * 10 ^ 18) 1 500000000 false).2
    (by norm_num) (by decide) (by decide) (by norm_num)

/-- Critical value 1.7885 of Grubbs' test, squared.  The code compares
`std::abs(mean - x) > stdev * 1.7885` (HighPerTimer.cpp:393) with
`stdev = sqrt(varB)`; both sides are nonnegative, so the comparison is
equivalent to the exact rational comparison
`(mean - x)² > 1.7885² * varB` used here. -/
def grubbsFactorSq : ℚ := (17885 / 10000) ^ 2

/-- Sample mean `accumulate(...) / VecFreq.size()` (HighPerTimer.cpp:378). -/
def sampleMean (l : List ℚ) : ℚ := l.sum / l.length

/-- Bessel-corrected sample variance `accum / (VecFreq.size() - 1)`
(HighPerTimer.cpp:379-383); the code takes its square root as stdev. -/
def sampleVarB (l : List ℚ) : ℚ :=
  (l.map (fun d => (d - sampleMean l) * (d - sampleMean l))).sum
    / ((l.length - 1 : ℕ) : ℚ)

/-- The erase loop of HighPerTimer::InitHPFrequency
(HighPerTimer.cpp:386-420): the iterator walks the vector with a peak
counter; while no peak was found, an outlier is erased (the iterator then
rests on the NEXT element) and a non-outlier is skipped; reaching any
element with `peak ≥ 1` takes the retry/abort branch (`false`).
Completing the walk returns `true` and the caller commits the mean. -/
def grubbsScan (mean varB : ℚ) : List ℚ → ℕ → Bool
  | [], _ => true
  | x :: rest, peak =>
    if peak < 1 then
      if (mean - x) * (mean - x) > grubbsFactorSq * varB then
        grubbsScan mean varB rest (peak + 1)
      else
        grubbsScan mean varB rest peak
    else false

/-- One run of the TSC branch of HighPerTimer::InitHPFrequency
(HighPerTimer.cpp:336-425) after the five frequency samples are
collected: mean and Bessel-corrected variance are computed over the
samples, the erase loop runs, and on completion the run commits
`NsecPerTic = mean` — the mean of ALL samples, never recomputed after an
erase.  `none` means the retry/abort branch was reached. -/
def runCalibrationAttempt (l : List ℚ) : Option ℚ :=
  if grubbsScan (sampleMean l) (sampleVarB l) l 0 then some (sampleMean l)
  else none

/-- The retry chain of InitHPFrequency: the global InitFreqAttempt
counter starts at 0 and each retry increments it while
`InitFreqAttempt < 3`, so runs happen at counter values 0, 1, 2, 3 and a
fourth failed run aborts process initialization (`none`). -/
def initHPFrequencyTSC (samples : ℕ → List ℚ) : Option ℚ :=
  match runCalibrationAttempt (samples 0) with
  | some m => some m
  | none =>
    match runCalibrationAttempt (samples 1) with
    | some m => some m
    | none =>
      match runCalibrationAttempt (samples 2) with
      | some m => some m
      | none => runCalibrationAttempt (samples 3)

/-- C2: evaluating the calibration at the failing input.  For the five
samples (0, 10, 10, 10, 10) — mean 8, Bessel variance 20, and exactly
one Grubbs outlier (the first sample: 8² = 64 > 1.7885² · 20 ≈ 63.97) —
the run takes the retry branch instead of committing; for
(10, 10, 10, 10, 0), the same single outlier placed last, the run
commits the original five-sample mean 8, not the recomputed four-sample
mean 10. -/
theorem thm_c2_calibration_outlier :
    runCalibrationAttempt [0, 10, 10, 10, 10] = none ∧
    runCalibrationAttempt [10, 10, 10, 10, 0] = some 8 ∧
    sampleMean [10, 10, 10, 10] = 10 := by
  refine ⟨?_, ?_, ?_⟩ <;>
    norm_num [runCalibrationAttempt, grubbsScan, sampleMean, sampleVarB,
      grubbsFactorSq]

/-- A little-endian 32-bit load `*(int32_t*)(base + off)` on x86, read as
the unsigned bit pattern; memory is a byte function and `% 256` makes
the byte range explicit. -/
def load32le (mem : ℕ → ℕ) (off : ℕ) : ℕ :=
  mem off % 256 + mem (off + 1) % 256 * 256 +
    mem (off + 2) % 256 * 256 ^ 2 + mem (off + 3) % 256 * 256 ^ 3

/-- A little-endian 64-bit load: the value a single 64-bit access at
`off` would return. -/
def load64le (mem : ℕ → ℕ) (off : ℕ) : ℕ :=
  load32le mem off + load32le mem (off + 4) * 2 ^ 32

/-- Reinterpret an unsigned 32-bit pattern as int32. -/
def toSigned32 (n : ℕ) : ℤ :=
  if n % 2 ^ 32 < 2 ^ 31 then ((n % 2 ^ 32 : ℕ) : ℤ)
  else ((n % 2 ^ 32 : ℕ) : ℤ) - 2 ^ 32

/-- Reinterpret an unsigned 64-bit pattern as int64. -/
def toSigned64 (n : ℕ) : ℤ :=
  if n % 2 ^ 64 < 2 ^ 63 then ((n % 2 ^ 64 : ℕ) : ℤ)
  else ((n % 2 ^ 64 : ℕ) : ℤ) - 2 ^ 64

/-- HPETTimer::GetHPETTics on an x86_64 target
(TimeHardware.cpp:296-298): the code dereferences
`(int32_t*)(HpetAdd_ptr + 0x0F0)` — a 32-bit signed load — stores it in
a uint64 (modular conversion) and returns it as int64. -/
def GetHPETTics (mem : ℕ → ℕ) : ℤ :=
  toSigned64 ((toSigned32 (load32le mem 0x0F0)).emod (2 ^ 64)).toNat

/-- C1: evaluating the x86_64 HPET read at the failing input: a mapped
region whose 64-bit main counter at offset 0x0F0 holds 2³² (byte 0x0F4
is 1, all others 0).  The code returns 0 — only the low 32 bits,
sign-extended — while the full 64-bit counter value a single 64-bit load
would return is 2³². -/
theorem thm_c1_hpet_read_low32 :
    GetHPETTics (fun a => if a = 0x0F4 then 1 else 0) = 0 ∧
    load64le (fun a => if a = 0x0F4 then 1 else 0) 0x0F0 = 2 ^ 32 := by
  constructor <;> decide

/-- The guard of the coarse condition-variable wait in
HighPerTimer::TicsSleep (HighPerTimer.cpp:944):
`(mHPTics > 0) && (HPTics * NsecPerTic >= BusyNSeconds)` with
`BusyNSeconds = (int64_t)(HPJiffies * 10⁹)`.  `receiverTics` is the
receiver's own `mHPTics` field; `hpTics` is the argument. -/
def ticsSleepCoarseGuard (receiverTics : ℤ) (hpTics : ℕ) (nspt jiffy : ℚ) : Bool :=
  decide (0 < receiverTics) &&
    decide (((ratTrunc (jiffy * 10 ^ 9) : ℤ) : ℚ) ≤ (hpTics : ℚ) * nspt)

/-- C6: evaluating the TicsSleep guard at the failing input: with
calibration nspt = 1 ns/tick and jiffy = 1/250 s, a requested interval
of 10⁹ ticks (= 10⁹ ns ≥ 4·10⁶ ns) satisfies the claimed condition, yet
a receiver whose own tick value is 0 skips the coarse wait while a
receiver with tick value 1 enters it — the decision depends on the
receiver's field, not only on the argument and the calibration. -/
theorem thm_c6_ticssleep_guard_uses_receiver :
    ticsSleepCoarseGuard 0 (10 ^ 9) 1 (1 / 250) = false ∧
    ticsSleepCoarseGuard 1 (10 ^ 9) 1 (1 / 250) = true ∧
    (1 / 250 : ℚ) * 10 ^ 9 ≤ ((10 ^ 9 : ℕ) : ℚ) * 1 := by
  have hq : (1 / 250 : ℚ) * 10 ^ 9 = ((4000000 : ℤ) : ℚ) := by norm_num
  refine ⟨?_, ?_, by norm_num⟩
  · simp [ticsSleepCoarseGuard]
  · simp only [ticsSleepCoarseGuard, hq, ratTrunc_intCast]
    norm_num

/-- The sleep entry points of class HighPerTimer. -/
inductive SleepEntry where
  | usecSleep
  | nsecSleep
  | ticsSleep
  | sleepToTics
  | sleepToTimer
  | sleepToThis
  | sleepOwn
deriving DecidableEq

/-- The per-instance volatile flags used by the sleep machinery. -/
structure SleepFlags where
  mInterrupted : Bool
  mCancelled : Bool
deriving DecidableEq

/-- A single write to one of the two flags. -/
inductive FlagWrite where
  | setCancelled (b : Bool)
  | setInterrupted (b : Bool)
deriving DecidableEq

/-- The writes each sleep entry point performs on the per-instance flags
before reaching any wait, in program order, read off the head of each
function (USecSleep 865-873, NSecSleep 899-907, TicsSleep 934-942,
SleepTo(int64) 971-979, SleepTo(HighPerTimer&) 1005-1012,
SleepToThis 1039-1046, Sleep 1072-1080): each begins
`mCancelled = false; ...; mInterrupted = false;`. -/
def preWaitWrites : SleepEntry → List FlagWrite
  | .usecSleep => [.setCancelled false, .setInterrupted false]
  | .nsecSleep => [.setCancelled false, .setInterrupted false]
  | .ticsSleep => [.setCancelled false, .setInterrupted false]
  | .sleepToTics => [.setCancelled false, .setInterrupted false]
  | .sleepToTimer => [.setCancelled false, .setInterrupted false]
  | .sleepToThis => [.setCancelled false, .setInterrupted false]
  | .sleepOwn => [.setCancelled false, .setInterrupted false]

/-- Apply one flag write to the flag state. -/
def applyWrite (s : SleepFlags) : FlagWrite → SleepFlags
  | .setCancelled b => { s with mCancelled := b }
  | .setInterrupted b => { s with mInterrupted := b }

/-- Apply a list of flag writes in program order. -/
def applyWrites (s : SleepFlags) (ws : List FlagWrite) : SleepFlags :=
  ws.foldl applyWrite s

/-- C10: every sleep entry point first sets `mCancelled = false` and then
`mInterrupted = false` before reaching any wait, so whatever the flags
held when the sleep began — in particular an interrupt recorded earlier
— both flags are false when the first wait can be reached. -/
theorem thm_c10_flags_cleared (e : SleepEntry) (s : SleepFlags) :
    applyWrites s (preWaitWrites e) = ⟨false, false⟩ ∧
    preWaitWrites e = [.setCancelled false, .setInterrupted false] := by
  cases e <;> exact ⟨rfl, rfl⟩

/-- Outcome of the coarse block of a sleep entry point:
the value of `mCancelled` after the block and whether the
`HPcond.wait_for` call was executed. -/
structure CoarseOutcome where
  cancelledAfter : Bool
  waitPerformed : Bool
deriving DecidableEq

/-- The coarse block of each sleep entry point, entered when its duration
guard holds (USecSleep 876-882, NSecSleep 910-917, TicsSleep 945-953,
SleepTo(int64) 982-989, SleepTo(HighPerTimer&) 1016-1023,
SleepToThis 1049-1056, Sleep 1083-1091).  In every one of them, under
the process-wide mutex the code runs
`if (mInterrupted == true) { mCancelled = true; }` and then —
unconditionally — `HPcond.wait_for(...)`. -/
def coarseBlock : SleepEntry → Bool → CoarseOutcome
  | .usecSleep, i => { cancelledAfter := i, waitPerformed := true }
  | .nsecSleep, i => { cancelledAfter := i, waitPerformed := true }
  | .ticsSleep, i => { cancelledAfter := i, waitPerformed := true }
  | .sleepToTics, i => { cancelledAfter := i, waitPerformed := true }
  | .sleepToTimer, i => { cancelledAfter := i, waitPerformed := true }
  | .sleepToThis, i => { cancelledAfter := i, waitPerformed := true }
  | .sleepOwn, i => { cancelledAfter := i, waitPerformed := true }

/-- C7 counterexample: in USecSleep, with the interrupt flag already set
when the mutex is acquired, the code marks cancelled — but the timed
condition-variable wait is still executed, not skipped. -/
theorem cex_c7_wait_not_skipped :
    (coarseBlock .usecSleep true).waitPerformed = true ∧
    (coarseBlock .usecSleep true).cancelledAfter = true :=
  ⟨rfl, rfl⟩

/-- C7 (amended): in every sleep entry point, when the per-instance
interrupted flag is already set at the moment the process-wide mutex is
acquired, the sleep marks cancelled true but still performs the timed
condition-variable wait; the early exit happens only afterwards, in the
busy-wait spin, via the interrupted flag. -/
theorem thm_c7_coarse_block (e : SleepEntry) :
    coarseBlock e true = { cancelledAfter := true, waitPerformed := true } := by
  cases e <;> rfl

end HPTimerSpec
